import Mathlib

/-!
A REST service over one `User` collection.

Shallow embedding of `src/server.js` (four Express handlers and the 404
fallback) and of `src/models/User.js` (the Mongoose schema of the `User`
model).

The handlers are embedded over an arbitrary persistence layer
(`UserModel`): they only inspect whether a call resolved, resolved to `null`
or rejected, and the `code` of the rejection.  The behaviour of the `User`
model itself is given by `mongoose`, an in-memory reading of what Mongoose
and MongoDB do with the schema of `User.js`: casting, setters, validators,
the unique indexes on `_id` and `email`, timestamps.  The body of an update
is passed whole to the model, as the handler does: it assigns values to
fields, or it is any other update (`UpdateBody`).
-/

namespace RestApi

/-! ## JavaScript values -/

/-- A JavaScript number: the finite doubles are read as rationals (order and
equality with `0` and `150` are exact there), besides the two infinities and
`NaN`. -/
inductive JsNum where
  | nan
  | negInf
  | fin (q : ℚ)
  | posInf
  deriving DecidableEq

/-- A value found under a key of a parsed JSON body.  `undefined` stands for a
key that is absent.  Of an array or object only what the casts of Mongoose look
at is kept: for an object its `_id` member, `undefined` when it has none. -/
inductive JsVal where
  | undefined
  | null
  | bool (b : Bool)
  | num (x : JsNum)
  | str (s : String)
  | arr
  | obj (id : JsVal)
  deriving DecidableEq

/-- JavaScript truthiness (`ToBoolean`), as used by `!name || !email`. -/
def JsVal.truthy : JsVal → Bool
  | .undefined => false
  | .null => false
  | .bool b => b
  | .num .nan => false
  | .num (.fin q) => decide (q ≠ 0)
  | .num _ => true
  | .str s => decide (s ≠ "")
  | .arr => true
  | .obj _ => true

/-- Comparison `x >= m` on JavaScript numbers, `m` finite. -/
def JsNum.ge (x : JsNum) (m : ℚ) : Bool :=
  match x with
  | .nan => false
  | .negInf => false
  | .fin q => decide (m ≤ q)
  | .posInf => true

/-- Comparison `x <= m` on JavaScript numbers, `m` finite. -/
def JsNum.le (x : JsNum) (m : ℚ) : Bool :=
  match x with
  | .nan => false
  | .negInf => true
  | .fin q => decide (q ≤ m)
  | .posInf => false

/-- Integrality, as `Number.isInteger` tests it. -/
def JsNum.isInteger : JsNum → Bool
  | .fin q => decide (q.den = 1)
  | _ => false

/-! ## JavaScript strings -/

/-- The `length` of a JavaScript string: UTF-16 code units, two for a
character outside the basic plane. -/
def jsLength (s : String) : Nat :=
  (s.data.map fun c => if c.toNat < 0x10000 then 1 else 2).sum

/-- White space and line terminators of ECMAScript, the characters
`String.prototype.trim` removes. -/
def isJsSpace (c : Char) : Bool :=
  let n := c.toNat
  n == 0x09 || n == 0x0A || n == 0x0B || n == 0x0C || n == 0x0D || n == 0x20 ||
  n == 0xA0 || n == 0x1680 || (0x2000 ≤ n && n ≤ 0x200A) || n == 0x2028 ||
  n == 0x2029 || n == 0x202F || n == 0x205F || n == 0x3000 || n == 0xFEFF

/-- Trimming, `String.prototype.trim`. -/
def jsTrim (s : String) : String :=
  String.mk ((s.data.dropWhile isJsSpace).reverse.dropWhile isJsSpace).reverse

/-- Lower-casing of one character.  The ASCII capitals, and the two other
characters whose lower case has an ASCII letter in it (KELVIN SIGN, and capital
I with dot above) are mapped as `toLowerCase` does; every other character is
left as it is, its real lower case being outside ASCII as well. -/
def lowerChar (c : Char) : List Char :=
  if 0x41 ≤ c.toNat ∧ c.toNat ≤ 0x5A then [Char.ofNat (c.toNat + 32)]
  else if c.toNat = 0x212A then ['k']
  else if c.toNat = 0x130 then ['i', Char.ofNat 0x307]
  else [c]

/-- Lower-casing, `String.prototype.toLowerCase`. -/
def toLowerCase (s : String) : String :=
  String.mk (s.data.flatMap lowerChar)

/-! ## Regular expressions -/

/-- The regular expressions needed for the `match` option of the schema. -/
inductive RegExp where
  | none
  | eps
  | lit (c : Char)
  | word
  | alt (a b : RegExp)
  | seq (a b : RegExp)
  | star (a : RegExp)
  deriving DecidableEq

namespace RegExp

/-- The class `\w` without the `u` and `i` flags: `[A-Za-z0-9_]`. -/
def isWord (c : Char) : Bool :=
  ('a' ≤ c && c ≤ 'z') || ('A' ≤ c && c ≤ 'Z') || ('0' ≤ c && c ≤ '9') || c == '_'

/-- Optional: `r?`. -/
def opt (r : RegExp) : RegExp := alt eps r

/-- One or more: `r+`. -/
def plus (r : RegExp) : RegExp := seq r (star r)

/-- Does `r` match the empty string? -/
def nullable : RegExp → Bool
  | none => false
  | eps => true
  | lit _ => false
  | word => false
  | alt a b => nullable a || nullable b
  | seq a b => nullable a && nullable b
  | star _ => true

/-- A sequence, simplified when one side is trivial. -/
def mkSeq : RegExp → RegExp → RegExp
  | none, _ => none
  | eps, b => b
  | a, b => seq a b

/-- An alternative, simplified when one side is empty. -/
def mkAlt : RegExp → RegExp → RegExp
  | none, b => b
  | a, none => a
  | a, b => alt a b

/-- Brzozowski derivative: what is left of `r` after reading `c`. -/
def deriv (c : Char) : RegExp → RegExp
  | none => none
  | eps => none
  | lit d => if c = d then eps else none
  | word => if isWord c then eps else none
  | alt a b => mkAlt (deriv c a) (deriv c b)
  | seq a b =>
    if nullable a then mkAlt (mkSeq (deriv c a) b) (deriv c b)
    else mkSeq (deriv c a) b
  | star a => mkSeq (deriv c a) (star a)

/-- Does `r` match the whole of the character list? -/
def matchesList (r : RegExp) : List Char → Bool
  | [] => nullable r
  | c :: cs => matchesList (deriv c r) cs

/-- The test `/^r$/.test(s)`. -/
def test (r : RegExp) (s : String) : Bool := matchesList r s.data

end RegExp

/-- The pattern of the `email` path,
`/^\w+([\.-]?\w+)*@\w+([\.-]?\w+)*(\.\w{2,3})+$/`, without its anchors. -/
def emailPattern : RegExp :=
  open RegExp in
  let sep := alt (lit '.') (lit '-')
  let words := seq (plus word) (star (seq (opt sep) (plus word)))
  let tld := seq (lit '.') (seq word (seq word (opt word)))
  seq words (seq (lit '@') (seq words (plus tld)))

/-! ## Documents and the persistence interface -/

/-- What a stored document holds under a path: nothing, `null`, or a value. -/
inductive Slot (α : Type) where
  | absent
  | null
  | val (a : α)
  deriving DecidableEq

/-- The key a MongoDB index files a path under: a missing path counts as
`null`. -/
def Slot.key {α : Type} : Slot α → Option α
  | .val a => some a
  | _ => none

/-- An `ObjectId`, as the number its 24 hexadecimal digits denote. -/
abbrev ObjectId := Nat

/-- A document of the `users` collection (`timestamps: true` adds the two
dates, read as clock ticks). -/
structure UserDoc where
  _id : ObjectId
  name : Slot String
  email : Slot String
  age : Slot JsNum
  phone : Slot String
  city : Slot String
  createdAt : Nat
  updatedAt : Nat
  deriving DecidableEq

/-- The keys `name`, `email`, `age`, `phone` and `city` of a parsed JSON body.
A key that is not sent is `undefined`.  These are the five keys the create
handler reads from `req.body`. -/
structure Body where
  name : JsVal := .undefined
  email : JsVal := .undefined
  age : JsVal := .undefined
  phone : JsVal := .undefined
  city : JsVal := .undefined
  deriving DecidableEq

/-- An error a call of the persistence layer rejects with. -/
structure MongoError where
  code : Option Nat
  message : String
  deriving DecidableEq

/-- An update that is more than an assignment of the five paths: a body with
update operators (`$rename`, `$inc`, `$unset`, ...) or with a key such as
`_id`.  It is given by what Mongoose and MongoDB make of it: the error it is
rejected with before any document is looked up (cast, update validators,
parsing of the operators), if any, and what it makes of the matched document
at a given time. -/
structure MongoUpdate where
  rejected : Option MongoError
  apply : Nat → UserDoc → Except MongoError UserDoc

/-- The body of an update request.  The handler passes `req.body` whole to
`findByIdAndUpdate`, so the body is either one that assigns values to the five
paths (keys that are no path of the schema are dropped by strict mode), or
any other update. -/
inductive UpdateBody where
  | fields (b : Body)
  | other (u : MongoUpdate)

/-- A call of the persistence layer on a state `σ`: it resolves or rejects,
and leaves a state. -/
abbrev Call (σ α : Type) := σ → Except MongoError α × σ

/-- What `server.js` uses of `mongoose` and of the `User` model. -/
structure UserModel (σ : Type) where
  /-- Call `User.find()`. -/
  find : Call σ (List UserDoc)
  /-- Call `new User({ name, email, age, phone, city }).save()`. -/
  save : Body → Call σ UserDoc
  /-- Call `User.findByIdAndUpdate(id, updateData, { new: true, runValidators: true })`. -/
  findByIdAndUpdate : String → UpdateBody → Call σ (Option UserDoc)
  /-- Call `User.findByIdAndDelete(id)`. -/
  findByIdAndDelete : String → Call σ (Option UserDoc)
  /-- Test `mongoose.Types.ObjectId.isValid(id)`. -/
  isValid : String → Bool

/-! ## The handlers of `server.js` -/

/-- The `data` member of a response. -/
inductive Payload where
  | one (user : UserDoc)
  | many (users : List UserDoc)
  deriving DecidableEq

/-- A response: the status code and the members of the JSON envelope. -/
structure Response where
  status : Nat
  success : Bool
  message : Option String := none
  count : Option Nat := none
  data : Option Payload := none
  error : Option String := none
  deriving DecidableEq

variable {σ : Type}

/-- Handler `app.get('/api/users', ...)`. -/
def getUsers (M : UserModel σ) (s : σ) : Response × σ :=
  match M.find s with
  | (.ok users, s') =>
    ({ status := 200, success := true, count := some users.length,
       data := some (.many users) }, s')
  | (.error error, s') =>
    ({ status := 500, success := false, message := some "Error fetching users",
       error := some error.message }, s')

/-- Handler `app.post('/api/users', ...)`. -/
def postUsers (M : UserModel σ) (body : Body) (s : σ) : Response × σ :=
  if !body.name.truthy || !body.email.truthy then
    ({ status := 400, success := false,
       message := some "Name and email are required fields" }, s)
  else
    match M.save body s with
    | (.ok savedUser, s') =>
      ({ status := 201, success := true, message := some "User created successfully",
         data := some (.one savedUser) }, s')
    | (.error error, s') =>
      if error.code = some 11000 then
        ({ status := 400, success := false, message := some "Email already exists" }, s')
      else
        ({ status := 400, success := false, message := some "Error creating user",
           error := some error.message }, s')

/-- Handler `app.put('/api/users/:id', ...)`. -/
def putUser (M : UserModel σ) (id : String) (updateData : UpdateBody) (s : σ) :
    Response × σ :=
  if !M.isValid id then
    ({ status := 400, success := false, message := some "Invalid user ID format" }, s)
  else
    match M.findByIdAndUpdate id updateData s with
    | (.ok none, s') =>
      ({ status := 404, success := false, message := some "User not found" }, s')
    | (.ok (some updatedUser), s') =>
      ({ status := 200, success := true, message := some "User updated successfully",
         data := some (.one updatedUser) }, s')
    | (.error error, s') =>
      if error.code = some 11000 then
        ({ status := 400, success := false, message := some "Email already exists" }, s')
      else
        ({ status := 400, success := false, message := some "Error updating user",
           error := some error.message }, s')

/-- Handler `app.delete('/api/users/:id', ...)`. -/
def deleteUser (M : UserModel σ) (id : String) (s : σ) : Response × σ :=
  if !M.isValid id then
    ({ status := 400, success := false, message := some "Invalid user ID format" }, s)
  else
    match M.findByIdAndDelete id s with
    | (.ok none, s') =>
      ({ status := 404, success := false, message := some "User not found" }, s')
    | (.ok (some deletedUser), s') =>
      ({ status := 200, success := true, message := some "User deleted successfully",
         data := some (.one deletedUser) }, s')
    | (.error error, s') =>
      ({ status := 500, success := false, message := some "Error deleting user",
         error := some error.message }, s')

/-- The final `app.use(...)`: no route matched. -/
def notFound (s : σ) : Response × σ :=
  ({ status := 404, success := false, message := some "Route not found" }, s)

/-- A request as the router of Express hands it out: one of the four routes
with its parameters, or a request matching none of them. -/
inductive Request where
  | getUsers
  | postUsers (body : Body)
  | putUser (id : String) (body : UpdateBody)
  | deleteUser (id : String)
  | unmatched

/-- The application: the routes in the order they are registered. -/
def app (M : UserModel σ) : Request → σ → Response × σ
  | .getUsers => getUsers M
  | .postUsers body => postUsers M body
  | .putUser id body => putUser M id body
  | .deleteUser id => deleteUser M id
  | .unmatched => notFound

/-! ## The schema of `models/User.js` -/

/-- The options of a `String` path; a validator comes with its message. -/
structure StringOptions where
  required : Option String := none
  unique : Bool := false
  trim : Bool := false
  lowercase : Bool := false
  minlength : Option (Nat × String) := none
  matchRe : Option (RegExp × String) := none

/-- The options of a `Number` path. -/
structure NumberOptions where
  min : Option (ℚ × String) := none
  max : Option (ℚ × String) := none

/-- A schema with the five paths of the `User` model. -/
structure UserSchema where
  name : StringOptions
  email : StringOptions
  age : NumberOptions
  phone : StringOptions
  city : StringOptions

/-- The schema of `models/User.js`. -/
def userSchema : UserSchema where
  name := {
    required := some "Please provide a name"
    trim := true
    minlength := some (2, "Name must be at least 2 characters") }
  email := {
    required := some "Please provide an email"
    unique := true
    lowercase := true
    matchRe := some (emailPattern, "Please provide a valid email") }
  age := {
    min := some (0, "Age cannot be negative")
    max := some (150, "Age cannot exceed 150") }
  phone := { trim := true }
  city := { trim := true }

/-! ## Mongoose: casting, setters, validators -/

/-- What the run time supplies to a call: the clock, the `ObjectId` that
`new User` generates, the two conversions of JavaScript between numbers and
strings, and the text of the message of the error in case the call rejects
(Mongoose and the driver compose it from the offending values); the
conversions and the text are taken as given. -/
structure Runtime where
  now : Nat
  newId : ObjectId
  numberOfString : String → JsNum
  stringOfNumber : JsNum → String
  errorText : String

/-- The cast of Mongoose to `String` (`castString`); `none` is a `CastError`.
A number or a boolean is converted; an object is taken for a document and
replaced by its `_id` when that is a non-empty string; any other object, and
every array, fails. -/
def castString (rt : Runtime) : JsVal → Option (Slot String)
  | .undefined => some .absent
  | .null => some .null
  | .bool b => some (.val (if b then "true" else "false"))
  | .num x => some (.val (rt.stringOfNumber x))
  | .str s => some (.val s)
  | .arr => none
  | .obj (.str i) => if i = "" then none else some (.val i)
  | .obj _ => none

/-- The function `castNumber` of Mongoose on a value; `none` is a failure.  The
empty string is cast to `null`, another string or a boolean goes through
`Number`, and `NaN`, arrays and objects are refused. -/
def castNumberValue (rt : Runtime) : JsVal → Option (Slot JsNum)
  | .undefined => some .absent
  | .null => some .null
  | .bool b => some (.val (.fin (if b then 1 else 0)))
  | .num x => if x = .nan then none else some (.val x)
  | .str s =>
    if s = "" then some .null
    else if rt.numberOfString s = .nan then none
    else some (.val (rt.numberOfString s))
  | .arr => none
  | .obj _ => none

/-- The cast of Mongoose to `Number` (`SchemaNumber.prototype.cast`); `none` is
a `CastError`.  A value that has an `_id` is taken for a document and replaced
by its `_id`, then `castNumber` is applied. -/
def castNumber (rt : Runtime) : JsVal → Option (Slot JsNum)
  | .obj .undefined => castNumberValue rt (.obj .undefined)
  | .obj id => castNumberValue rt id
  | v => castNumberValue rt v

/-- The setters `lowercase` and `trim`: they leave `null` and the empty
string alone. -/
def StringOptions.applySetters (o : StringOptions) : Slot String → Slot String
  | .val s =>
    let s := if o.lowercase && s ≠ "" then toLowerCase s else s
    .val (if o.trim && s ≠ "" then jsTrim s else s)
  | v => v

/-- The validator `required` of a `String` path: a non-empty string. -/
def checkRequired : Slot String → Bool
  | .val s => s ≠ ""
  | _ => false

/-- The validator `minlength`; it lets `null` through, and like every
validator but `required` it is not run on a path that is not there. -/
def checkMinlength (n : Nat) : Slot String → Bool
  | .val s => n ≤ jsLength s
  | _ => true

/-- The validator `match`; it lets `null` and the empty string through. -/
def checkMatch (r : RegExp) : Slot String → Bool
  | .val s => s = "" || r.test s
  | _ => true

/-- The validator `min`: `value == null || value >= min`. -/
def checkMin (m : ℚ) : Slot JsNum → Bool
  | .val x => x.ge m
  | _ => true

/-- The validator `max`: `value == null || value <= max`. -/
def checkMax (m : ℚ) : Slot JsNum → Bool
  | .val x => x.le m
  | _ => true

/-- The message of the first validator of the list that fails on `v`. -/
def firstFailure {α : Type} (validators : List ((α → Bool) × String)) (v : α) :
    Option String :=
  (validators.find? fun p => !p.1 v).map Prod.snd

/-- The validators of a `String` path, `required` first. -/
def StringOptions.validators (o : StringOptions) : List ((Slot String → Bool) × String) :=
  (match o.required with
    | some msg => [(checkRequired, msg)]
    | none => []) ++
  (match o.minlength with
    | some (n, msg) => [(checkMinlength n, msg)]
    | none => []) ++
  (match o.matchRe with
    | some (r, msg) => [(checkMatch r, msg)]
    | none => [])

/-- The validators of a `Number` path. -/
def NumberOptions.validators (o : NumberOptions) : List ((Slot JsNum → Bool) × String) :=
  (match o.min with
    | some (m, msg) => [(checkMin m, msg)]
    | none => []) ++
  (match o.max with
    | some (m, msg) => [(checkMax m, msg)]
    | none => [])

/-- Why a value is refused by a path: it cannot be cast, or a validator
fails, with its message. -/
inductive PathError where
  | cast
  | validator (message : String)
  deriving DecidableEq

/-- A value set on a `String` path: cast, setters, validators.  The result is
what gets stored, or the failure. -/
def stringPath (rt : Runtime) (o : StringOptions) (v : JsVal) :
    Except PathError (Slot String) :=
  match castString rt v with
  | none => .error .cast
  | some slot =>
    match firstFailure o.validators (o.applySetters slot) with
    | some msg => .error (.validator msg)
    | none => .ok (o.applySetters slot)

/-- A value set on a `Number` path: cast, validators. -/
def numberPath (rt : Runtime) (o : NumberOptions) (v : JsVal) :
    Except PathError (Slot JsNum) :=
  match castNumber rt v with
  | none => .error .cast
  | some slot =>
    match firstFailure o.validators slot with
    | some msg => .error (.validator msg)
    | none => .ok slot

/-- The values of the five paths of a document. -/
structure Fields where
  name : Slot String
  email : Slot String
  age : Slot JsNum
  phone : Slot String
  city : Slot String
  deriving DecidableEq

/-- Validation of a new document, as `save()` runs it: every path of the
schema is set from the body and validated; one failure rejects the document
with a `ValidationError`, which has no `code`. -/
def validateNew (S : UserSchema) (rt : Runtime) (b : Body) : Except MongoError Fields :=
  match stringPath rt S.name b.name, stringPath rt S.email b.email,
    numberPath rt S.age b.age, stringPath rt S.phone b.phone,
    stringPath rt S.city b.city with
  | .ok name, .ok email, .ok age, .ok phone, .ok city =>
    .ok { name := name, email := email, age := age, phone := phone, city := city }
  | _, _, _, _, _ => .error { code := none, message := rt.errorText }

/-- A path of an update: a key that is not sent is left out (`none`), a key
that is sent is cast, set and validated like the path of a document
(`runValidators: true`). -/
def updatePath {α : Type} (path : JsVal → Except PathError (Slot α)) (v : JsVal) :
    Except PathError (Option (Slot α)) :=
  match v with
  | .undefined => .ok none
  | v => (path v).map some

/-- The paths an update sets. -/
structure Update where
  name : Option (Slot String)
  email : Option (Slot String)
  age : Option (Slot JsNum)
  phone : Option (Slot String)
  city : Option (Slot String)
  deriving DecidableEq

/-- Cast and validation of an update that assigns values to paths, before it
is sent to the database; a failure is a `CastError` or a `ValidationError`,
which have no `code`. -/
def validateUpdate (S : UserSchema) (rt : Runtime) (b : Body) : Except MongoError Update :=
  match updatePath (stringPath rt S.name) b.name,
    updatePath (stringPath rt S.email) b.email,
    updatePath (numberPath rt S.age) b.age,
    updatePath (stringPath rt S.phone) b.phone,
    updatePath (stringPath rt S.city) b.city with
  | .ok name, .ok email, .ok age, .ok phone, .ok city =>
    .ok { name := name, email := email, age := age, phone := phone, city := city }
  | _, _, _, _, _ => .error { code := none, message := rt.errorText }

/-! ## MongoDB: the collection and its unique indexes -/

/-- The collection, in its natural order. -/
abbrev Store := List UserDoc

/-- The error of a write that breaks a unique index: its `code` is 11000. -/
def duplicateKey (text : String) : MongoError :=
  { code := some 11000, message := text }

/-- The first document with the given `_id`, with what comes before and after
it in the collection. -/
def splitAtId (oid : ObjectId) : Store → Option (Store × UserDoc × Store)
  | [] => none
  | d :: ds =>
    if d._id = oid then some ([], d, ds)
    else (splitAtId oid ds).map fun r => (d :: r.1, r.2.1, r.2.2)

/-- Insertion of a document: refused with a duplicate key error when its
`_id` is taken, or, under a unique index on `email`, when its email is. -/
def insertOne (uniqueEmail : Bool) (text : String) (doc : UserDoc) (docs : Store) :
    Except MongoError Store :=
  if docs.any fun d => d._id = doc._id then .error (duplicateKey text)
  else if uniqueEmail && docs.any fun d => d.email.key = doc.email.key then
    .error (duplicateKey text)
  else .ok (docs ++ [doc])

/-- The value of a hexadecimal digit. -/
def hexDigit (c : Char) : Option Nat :=
  if '0' ≤ c ∧ c ≤ '9' then some (c.toNat - '0'.toNat)
  else if 'a' ≤ c ∧ c ≤ 'f' then some (c.toNat - 'a'.toNat + 10)
  else if 'A' ≤ c ∧ c ≤ 'F' then some (c.toNat - 'A'.toNat + 10)
  else none

/-- The `ObjectId` a string denotes: 24 hexadecimal digits. -/
def parseObjectId (id : String) : Option ObjectId :=
  if id.data.length = 24 then
    id.data.foldl (fun acc c => acc.bind fun n => (hexDigit c).map fun d => 16 * n + d) (some 0)
  else none

/-- The document after an update: the paths that are set, and `updatedAt`. -/
def applyUpdate (now : Nat) (u : Update) (d : UserDoc) : UserDoc :=
  { d with
    name := u.name.getD d.name
    email := u.email.getD d.email
    age := u.age.getD d.age
    phone := u.phone.getD d.phone
    city := u.city.getD d.city
    updatedAt := now }

/-- The document `new User(...)` makes of validated values: a generated `_id`,
and both dates set to the time of the call. -/
def newDocument (rt : Runtime) (f : Fields) : UserDoc :=
  { _id := rt.newId, name := f.name, email := f.email, age := f.age,
    phone := f.phone, city := f.city, createdAt := rt.now, updatedAt := rt.now }

/-- An update as it reaches the database: cast and validated by Mongoose, it
is rejected there, or it is a change to make to the matched document. -/
def prepareUpdate (S : UserSchema) (rt : Runtime) :
    UpdateBody → Except MongoError (UserDoc → Except MongoError UserDoc)
  | .fields b =>
    match validateUpdate S rt b with
    | .error e => .error e
    | .ok u => .ok fun old => .ok (applyUpdate rt.now u old)
  | .other u =>
    match u.rejected with
    | some e => .error e
    | none => .ok (u.apply rt.now)

/-- The update `{ "$rename": { "city": "email" } }`.  MongoDB moves the value
of `city`, if the document has that field, to `email`; `$rename` assigns no
value to a path, so neither the setters nor the update validators of Mongoose
run on it; `timestamps` sets `updatedAt`. -/
def renameCityToEmail : MongoUpdate where
  rejected := none
  apply := fun now d =>
    match d.city with
    | .absent => .ok { d with updatedAt := now }
    | v => .ok { d with email := v, city := .absent, updatedAt := now }

/-- The `User` model of `models/User.js` on an in-memory collection. -/
def mongooseModel (S : UserSchema) (rt : Runtime) : UserModel Store where
  find := fun docs => (.ok docs, docs)
  save := fun body docs =>
    match validateNew S rt body with
    | .error e => (.error e, docs)
    | .ok f =>
      match insertOne S.email.unique rt.errorText (newDocument rt f) docs with
      | .error e => (.error e, docs)
      | .ok docs' => (.ok (newDocument rt f), docs')
  findByIdAndUpdate := fun id body docs =>
    match parseObjectId id with
    | none => (.error { code := none, message := rt.errorText }, docs)
    | some oid =>
      match prepareUpdate S rt body with
      | .error e => (.error e, docs)
      | .ok change =>
        match splitAtId oid docs with
        | none => (.ok none, docs)
        | some (before, old, after) =>
          match change old with
          | .error e => (.error e, docs)
          | .ok new =>
            if S.email.unique && new.email.key ≠ old.email.key &&
                (before ++ after).any fun d => d.email.key = new.email.key then
              (.error (duplicateKey rt.errorText), docs)
            else (.ok (some new), before ++ new :: after)
  findByIdAndDelete := fun id docs =>
    match parseObjectId id with
    | none => (.error { code := none, message := rt.errorText }, docs)
    | some oid =>
      match splitAtId oid docs with
      | none => (.ok none, docs)
      | some (before, old, after) => (.ok (some old), before ++ after)
  isValid := fun id => (parseObjectId id).isSome

/-- The persistence layer of the service: the `User` model under the schema of
`models/User.js`. -/
def mongoose (rt : Runtime) : UserModel Store := mongooseModel userSchema rt

/-- The service on the in-memory collection. -/
def serve (rt : Runtime) (req : Request) (docs : Store) : Response × Store :=
  app (mongoose rt) req docs

/-- The collection after a sequence of requests, each served at its own run
time. -/
def run : List (Runtime × Request) → Store → Store
  | [], docs => docs
  | (rt, req) :: rest, docs => run rest (serve rt req docs).2

/-- A run time for closed examples, with the given clock and fresh `ObjectId`.
Its conversions between numbers and strings are constant: the bodies of the
examples have strings for names and emails and numbers for ages, which are not
converted. -/
def exampleRuntime (now : Nat) (newId : ObjectId) : Runtime :=
  { now := now, newId := newId, numberOfString := fun _ => .nan,
    stringOfNumber := fun _ => "", errorText := "" }

/-- A persistence layer that is out of reach: every call rejects with the
given error and leaves the state alone. -/
def outOfReach (e : MongoError) : UserModel Unit where
  find := fun s => (.error e, s)
  save := fun _ s => (.error e, s)
  findByIdAndUpdate := fun _ _ s => (.error e, s)
  findByIdAndDelete := fun _ s => (.error e, s)
  isValid := fun id => (parseObjectId id).isSome

/-! ## Invariants -/

/-- A request as the documentation of the handlers describes it: the body of
an update request assigns values to fields. -/
def Request.documented : Request → Bool
  | .putUser _ (.other _) => false
  | _ => true

/-- A stored email is a string in lower case that matches the pattern of the
schema. -/
def emailOk (d : UserDoc) : Prop :=
  ∃ e, d.email = .val e ∧ toLowerCase e = e ∧ emailPattern.test e = true

/-- The invariant of the collection: distinct `_id`s, distinct emails, and
every email a string in lower case that matches the pattern. -/
def StoreInv (docs : Store) : Prop :=
  (docs.map UserDoc._id).Nodup ∧ (docs.map fun d => d.email.key).Nodup ∧
    ∀ d ∈ docs, emailOk d

/-! ## The handlers over any persistence layer -/

/-- Claim C1: when `name` or `email` of the body of a create request is missing
(absent, `null`, or any other falsy value such as the empty string), the create
handler answers 400 with `success: false` and leaves the state of the
persistence layer as it was, whatever that layer is. -/
theorem postUsers_missing_required (M : UserModel σ) (body : Body) (s : σ)
    (h : body.name.truthy = false ∨ body.email.truthy = false) :
    (postUsers M body s).1.status = 400 ∧ (postUsers M body s).1.success = false ∧
      (postUsers M body s).2 = s := by
  have hg : (!body.name.truthy || !body.email.truthy) = true := by
    rcases h with h | h <;> simp [h]
  simp [postUsers, hg]

/-- Witness of C1 on the in-memory collection: an empty name, and an email
that is not sent. -/
theorem postUsers_missing_required_witness :
    ((JsVal.str "").truthy = false ∨ JsVal.undefined.truthy = false) ∧
    (postUsers (mongoose (exampleRuntime 1 1)) { name := .str "" } []).1.status = 400 ∧
    (postUsers (mongoose (exampleRuntime 1 1)) { name := .str "" } []).1.success = false ∧
    (postUsers (mongoose (exampleRuntime 1 1)) { name := .str "" } []).2 = [] :=
  ⟨Or.inl (by decide),
    postUsers_missing_required (mongoose (exampleRuntime 1 1)) { name := .str "" } []
      (Or.inl (by decide))⟩

/-- Counterexample to C5: the database is out of reach, `save()` rejects with
an error that is neither a validation error nor a duplicate key, and the create
handler answers 400, not 500; so does the update handler. -/
theorem unexpected_error_is_400 :
    (postUsers (outOfReach { code := none, message := "connection lost" })
      { name := .str "Al", email := .str "a@b.co" } ()).1.status = 400 ∧
    (putUser (outOfReach { code := none, message := "connection lost" })
      "0123456789abcdef01234567" (.fields { name := .str "Al" }) ()).1.status = 400 := by
  decide

/-- Claim C5, amended: the status code of each handler is determined by the
outcome of its call of the persistence layer.  A call that resolves gives 200
(201 for create, 404 when update or delete resolve to no document); a call
that rejects gives 400 in create and update, whatever the error, and 500 in
list and delete.  Create answers 400 before any call when `name` or `email` is
falsy, update and delete when the id is not a valid `ObjectId`. -/
theorem status_of_outcome (M : UserModel σ) (body : Body) (update : UpdateBody) (id : String)
    (s : σ) :
    (getUsers M s).1.status =
      (match (M.find s).1 with
        | .ok _ => 200
        | .error _ => 500) ∧
    (postUsers M body s).1.status =
      (if !body.name.truthy || !body.email.truthy then 400
        else match (M.save body s).1 with
          | .ok _ => 201
          | .error _ => 400) ∧
    (putUser M id update s).1.status =
      (if !M.isValid id then 400
        else match (M.findByIdAndUpdate id update s).1 with
          | .ok (some _) => 200
          | .ok none => 404
          | .error _ => 400) ∧
    (deleteUser M id s).1.status =
      (if !M.isValid id then 400
        else match (M.findByIdAndDelete id s).1 with
          | .ok (some _) => 200
          | .ok none => 404
          | .error _ => 500) := by
  refine ⟨?_, ?_, ?_, ?_⟩
  · unfold getUsers
    rcases M.find s with ⟨_ | _, _⟩ <;> rfl
  · unfold postUsers
    by_cases hg : (!body.name.truthy || !body.email.truthy) = true
    · simp only [hg, if_true]
    · simp only [hg, if_false]
      rcases M.save body s with ⟨e | _, _⟩
      · by_cases hc : e.code = some 11000 <;> simp [hc]
      · rfl
  · unfold putUser
    by_cases hg : (!M.isValid id) = true
    · simp only [hg, if_true]
    · simp only [hg, if_false]
      rcases M.findByIdAndUpdate id update s with ⟨e | _ | _, _⟩
      · by_cases hc : e.code = some 11000 <;> simp [hc]
      · rfl
      · rfl
  · unfold deleteUser
    by_cases hg : (!M.isValid id) = true
    · simp only [hg, if_true]
    · simp only [hg, if_false]
      rcases M.findByIdAndDelete id s with ⟨_ | _ | _, _⟩ <;> rfl

/-- Claim C10: every response of the application, from the four handlers on
each of their branches and from the fallback for an unmatched route, has
`success: true` exactly when its status is 200 or 201; the status is one of
200, 201, 400, 404 and 500, and the fallback answers 404. -/
theorem success_iff_2xx (M : UserModel σ) (req : Request) (s : σ) :
    ((app M req s).1.success = true ↔
      (app M req s).1.status = 200 ∨ (app M req s).1.status = 201) ∧
    (app M req s).1.status ∈ [200, 201, 400, 404, 500] ∧
    (app M .unmatched s).1.status = 404 := by
  refine ⟨?_, ?_, rfl⟩
  · cases req with
    | getUsers =>
      simp only [app, getUsers]
      rcases M.find s with ⟨_ | _, _⟩ <;> simp
    | postUsers body =>
      simp only [app, postUsers]
      split
      · simp
      · rcases M.save body s with ⟨e | _, _⟩
        · by_cases hc : e.code = some 11000 <;> simp [hc]
        · simp
    | putUser id body =>
      simp only [app, putUser]
      split
      · simp
      · rcases M.findByIdAndUpdate id body s with ⟨e | _ | _, _⟩
        · by_cases hc : e.code = some 11000 <;> simp [hc]
        · simp
        · simp
    | deleteUser id =>
      simp only [app, deleteUser]
      split
      · simp
      · rcases M.findByIdAndDelete id s with ⟨_ | _ | _, _⟩ <;> simp
    | unmatched => simp [app, notFound]
  · cases req with
    | getUsers =>
      simp only [app, getUsers]
      rcases M.find s with ⟨_ | _, _⟩ <;> simp
    | postUsers body =>
      simp only [app, postUsers]
      split
      · simp
      · rcases M.save body s with ⟨e | _, _⟩
        · by_cases hc : e.code = some 11000 <;> simp [hc]
        · simp
    | putUser id body =>
      simp only [app, putUser]
      split
      · simp
      · rcases M.findByIdAndUpdate id body s with ⟨e | _ | _, _⟩
        · by_cases hc : e.code = some 11000 <;> simp [hc]
        · simp
        · simp
    | deleteUser id =>
      simp only [app, deleteUser]
      split
      · simp
      · rcases M.findByIdAndDelete id s with ⟨_ | _ | _, _⟩ <;> simp
    | unmatched => simp [app, notFound]

/-! ## Lemmas on validation -/

theorem validateNew_ok_iff (S : UserSchema) (rt : Runtime) (b : Body) (f : Fields) :
    validateNew S rt b = .ok f ↔
      stringPath rt S.name b.name = .ok f.name ∧ stringPath rt S.email b.email = .ok f.email ∧
      numberPath rt S.age b.age = .ok f.age ∧ stringPath rt S.phone b.phone = .ok f.phone ∧
      stringPath rt S.city b.city = .ok f.city := by
  unfold validateNew
  split
  · next n e a p c hn he ha hp hc =>
    rw [hn, he, ha, hp, hc]
    cases f
    simp
  · next hne =>
    constructor
    · intro h
      cases h
    · rintro ⟨hn, he, ha, hp, hc⟩
      exact (hne _ _ _ _ _ hn he ha hp hc).elim

theorem validateNew_error_code (S : UserSchema) (rt : Runtime) (b : Body) (e : MongoError)
    (h : validateNew S rt b = .error e) : e.code = none := by
  unfold validateNew at h
  split at h
  · cases h
  · cases h
    rfl

/-! ## The handlers on the in-memory collection -/

/-- The create handler on the in-memory collection, case by case. -/
theorem serve_postUsers (rt : Runtime) (b : Body) (docs : Store) :
    serve rt (.postUsers b) docs =
      if !b.name.truthy || !b.email.truthy then
        ({ status := 400, success := false,
           message := some "Name and email are required fields" }, docs)
      else match validateNew userSchema rt b with
        | .error e =>
          ({ status := 400, success := false, message := some "Error creating user",
             error := some e.message }, docs)
        | .ok f =>
          if (docs.any fun d => d._id = rt.newId) ||
              docs.any fun d => d.email.key = f.email.key then
            ({ status := 400, success := false, message := some "Email already exists" }, docs)
          else
            ({ status := 201, success := true, message := some "User created successfully",
               data := some (.one (newDocument rt f)) }, docs ++ [newDocument rt f]) := by
  simp only [serve, app, postUsers, mongoose, mongooseModel]
  split
  · rfl
  · cases hv : validateNew userSchema rt b with
    | error e =>
      simp only [validateNew_error_code _ _ _ _ hv]
      simp
    | ok f =>
      simp only [insertOne, userSchema, Bool.true_and]
      by_cases h1 : (docs.any fun d => d._id = (newDocument rt f)._id) = true
      · have h1' : (docs.any fun d => d._id = rt.newId) = true := h1
        simp [h1, h1', duplicateKey]
      · have h1' : ¬ (docs.any fun d => d._id = rt.newId) = true := h1
        by_cases h2 : (docs.any fun d => d.email.key = (newDocument rt f).email.key) = true
        · have h2' : (docs.any fun d => d.email.key = f.email.key) = true := h2
          simp [h1, h2, h1', h2', duplicateKey]
        · have h2' : ¬ (docs.any fun d => d.email.key = f.email.key) = true := h2
          simp [h1, h2, h1', h2']

theorem validateUpdate_error_code (S : UserSchema) (rt : Runtime) (b : Body) (e : MongoError)
    (h : validateUpdate S rt b = .error e) : e.code = none := by
  unfold validateUpdate at h
  split at h
  · cases h
  · cases h
    rfl

theorem splitAtId_eq_none (oid : ObjectId) (docs : Store) :
    splitAtId oid docs = none ↔ ∀ d ∈ docs, d._id ≠ oid := by
  induction docs with
  | nil => simp [splitAtId]
  | cons d ds ih =>
    unfold splitAtId
    by_cases h : d._id = oid
    · simp [h]
    · simp [h, ih]

theorem splitAtId_eq_some (oid : ObjectId) (docs before after : Store) (d : UserDoc)
    (h : splitAtId oid docs = some (before, d, after)) :
    docs = before ++ d :: after ∧ d._id = oid ∧ ∀ x ∈ before, x._id ≠ oid := by
  induction docs generalizing before with
  | nil => simp [splitAtId] at h
  | cons x xs ih =>
    unfold splitAtId at h
    by_cases hx : x._id = oid
    · simp only [hx, if_true, Option.some.injEq, Prod.mk.injEq] at h
      obtain ⟨rfl, rfl, rfl⟩ := h
      simp [hx]
    · simp only [hx, if_false, Option.map_eq_some'] at h
      obtain ⟨⟨b', d', a'⟩, hr, heq⟩ := h
      simp only [Prod.mk.injEq] at heq
      obtain ⟨rfl, rfl, rfl⟩ := heq
      obtain ⟨h1, h2, h3⟩ := ih b' hr
      refine ⟨by simp [h1], h2, ?_⟩
      intro y hy
      rcases List.mem_cons.mp hy with rfl | hy
      · exact hx
      · exact h3 y hy

/-- The update handler on the in-memory collection, case by case. -/
theorem serve_putUser (rt : Runtime) (id : String) (body : UpdateBody) (docs : Store) :
    serve rt (.putUser id body) docs =
      match parseObjectId id with
      | none =>
        ({ status := 400, success := false, message := some "Invalid user ID format" }, docs)
      | some oid =>
        match prepareUpdate userSchema rt body with
        | .error e =>
          (if e.code = some 11000 then
              { status := 400, success := false, message := some "Email already exists" }
            else
              { status := 400, success := false, message := some "Error updating user",
                error := some e.message }, docs)
        | .ok change =>
          match splitAtId oid docs with
          | none =>
            ({ status := 404, success := false, message := some "User not found" }, docs)
          | some (before, old, after) =>
            match change old with
            | .error e =>
              (if e.code = some 11000 then
                  { status := 400, success := false, message := some "Email already exists" }
                else
                  { status := 400, success := false, message := some "Error updating user",
                    error := some e.message }, docs)
            | .ok new =>
              if new.email.key ≠ old.email.key ∧
                  ((before ++ after).any fun d => d.email.key = new.email.key) = true then
                ({ status := 400, success := false, message := some "Email already exists" },
                  docs)
              else
                ({ status := 200, success := true,
                   message := some "User updated successfully", data := some (.one new) },
                  before ++ new :: after) := by
  simp only [serve, app, putUser, mongoose, mongooseModel]
  cases hp : parseObjectId id with
  | none => simp
  | some oid =>
    simp only [Option.isSome_some, Bool.not_true, Bool.false_eq_true, if_false]
    cases hv : prepareUpdate userSchema rt body with
    | error e =>
      by_cases hc : e.code = some 11000 <;> simp [hc]
    | ok change =>
      simp only []
      cases hs : splitAtId oid docs with
      | none => simp
      | some r =>
        obtain ⟨before, old, after⟩ := r
        simp only []
        cases hch : change old with
        | error e =>
          by_cases hc : e.code = some 11000 <;> simp [hc]
        | ok new =>
          simp only [userSchema, Bool.true_and]
          by_cases hc : new.email.key ≠ old.email.key ∧
              ((before ++ after).any fun d => d.email.key = new.email.key) = true
          · have hc' := hc
            simp only [ne_eq] at hc'
            simp [hc, hc'.1, hc'.2, duplicateKey]
          · rw [if_neg hc]
            by_cases h1 : new.email.key = old.email.key
            · simp [h1]
            · have h2 : ¬ ((before ++ after).any fun d =>
                  d.email.key = new.email.key) = true :=
                fun h2 => hc ⟨h1, h2⟩
              simp only [ne_eq, h1, not_false_eq_true, decide_True, Bool.true_and]
              rw [if_neg h2]

/-- The update handler on a body that assigns values to paths, case by case. -/
theorem serve_putUser_fields (rt : Runtime) (id : String) (b : Body) (docs : Store) :
    serve rt (.putUser id (.fields b)) docs =
      match parseObjectId id with
      | none =>
        ({ status := 400, success := false, message := some "Invalid user ID format" }, docs)
      | some oid =>
        match validateUpdate userSchema rt b with
        | .error e =>
          ({ status := 400, success := false, message := some "Error updating user",
             error := some e.message }, docs)
        | .ok u =>
          match splitAtId oid docs with
          | none =>
            ({ status := 404, success := false, message := some "User not found" }, docs)
          | some (before, old, after) =>
            if (applyUpdate rt.now u old).email.key ≠ old.email.key ∧
                ((before ++ after).any fun d =>
                  d.email.key = (applyUpdate rt.now u old).email.key) = true then
              ({ status := 400, success := false, message := some "Email already exists" },
                docs)
            else
              ({ status := 200, success := true, message := some "User updated successfully",
                 data := some (.one (applyUpdate rt.now u old)) },
                before ++ applyUpdate rt.now u old :: after) := by
  rw [serve_putUser]
  cases hp : parseObjectId id with
  | none => rfl
  | some oid =>
    simp only [prepareUpdate]
    cases hv : validateUpdate userSchema rt b with
    | error e =>
      simp [validateUpdate_error_code _ _ _ _ hv]
    | ok u => rfl

/-- The delete handler on the in-memory collection, case by case. -/
theorem serve_deleteUser (rt : Runtime) (id : String) (docs : Store) :
    serve rt (.deleteUser id) docs =
      match parseObjectId id with
      | none =>
        ({ status := 400, success := false, message := some "Invalid user ID format" }, docs)
      | some oid =>
        match splitAtId oid docs with
        | none =>
          ({ status := 404, success := false, message := some "User not found" }, docs)
        | some (before, old, after) =>
          ({ status := 200, success := true, message := some "User deleted successfully",
             data := some (.one old) }, before ++ after) := by
  simp only [serve, app, deleteUser, mongoose, mongooseModel]
  cases hp : parseObjectId id with
  | none => simp
  | some oid =>
    simp only [Option.isSome_some, Bool.not_true, Bool.false_eq_true, if_false]
    cases hs : splitAtId oid docs with
    | none => simp
    | some r =>
      obtain ⟨before, old, after⟩ := r
      simp

/-- What a create request that is answered 201 has gone through. -/
theorem created_iff (rt : Runtime) (b : Body) (docs : Store) :
    (serve rt (.postUsers b) docs).1.status = 201 ↔
      b.name.truthy = true ∧ b.email.truthy = true ∧
      ∃ f, validateNew userSchema rt b = .ok f ∧ (∀ d ∈ docs, d._id ≠ rt.newId) ∧
        ∀ d ∈ docs, d.email.key ≠ f.email.key := by
  rw [serve_postUsers]
  by_cases hg : (!b.name.truthy || !b.email.truthy) = true
  · rw [if_pos hg]
    constructor
    · intro h
      simp at h
    · rintro ⟨h1, h2, -⟩
      simp [h1, h2] at hg
  · rw [if_neg hg]
    have hg' : b.name.truthy = true ∧ b.email.truthy = true := by
      simpa using hg
    cases hv : validateNew userSchema rt b with
    | error e => simp
    | ok f =>
      by_cases hc : ((docs.any fun d => d._id = rt.newId) ||
          docs.any fun d => d.email.key = f.email.key) = true
      · simp only [hc, if_true]
        constructor
        · intro h
          simp at h
        · rintro ⟨-, -, f', hf', h1, h2⟩
          cases hf'
          simp only [Bool.or_eq_true, List.any_eq_true, decide_eq_true_eq] at hc
          rcases hc with ⟨d, hd, hid⟩ | ⟨d, hd, hem⟩
          · exact (h1 d hd hid).elim
          · exact (h2 d hd hem).elim
      · simp only [hc, if_false]
        simp only [Bool.or_eq_true, List.any_eq_true, decide_eq_true_eq, not_or, not_exists,
          not_and] at hc
        exact ⟨fun _ => ⟨hg'.1, hg'.2, f, rfl, hc.1, hc.2⟩, fun _ => rfl⟩

theorem numberPath_age_undefined (rt : Runtime) :
    numberPath rt userSchema.age .undefined = .ok .absent := by
  simp [numberPath, castNumber, castNumberValue, firstFailure, NumberOptions.validators,
    userSchema, checkMin, checkMax]

theorem numberPath_obj_num (rt : Runtime) (o : NumberOptions) (x : JsNum) :
    numberPath rt o (.obj (.num x)) = numberPath rt o (.num x) := by
  simp [numberPath, castNumber]

theorem numberPath_age_num (rt : Runtime) (x : JsNum) :
    numberPath rt userSchema.age (.num x) =
      if x.ge 0 = true ∧ x.le 150 = true then .ok (.val x)
      else if x = .nan then .error .cast
      else if x.ge 0 = true then .error (.validator "Age cannot exceed 150")
      else .error (.validator "Age cannot be negative") := by
  cases x with
  | nan => simp [numberPath, castNumber, castNumberValue, JsNum.ge]
  | negInf =>
    simp [numberPath, castNumber, castNumberValue, firstFailure, NumberOptions.validators,
      userSchema, checkMin, checkMax, JsNum.ge, JsNum.le]
  | posInf =>
    simp [numberPath, castNumber, castNumberValue, firstFailure, NumberOptions.validators,
      userSchema, checkMin, checkMax, JsNum.ge, JsNum.le]
  | fin q =>
    by_cases h0 : (0 : ℚ) ≤ q <;> by_cases h1 : q ≤ (150 : ℚ) <;>
      simp [numberPath, castNumber, castNumberValue, firstFailure, NumberOptions.validators,
        userSchema, checkMin, checkMax, JsNum.ge, JsNum.le, h0, h1]

/-! ## Claims on the in-memory collection -/

/-- Counterexample to C3: an age of 25.5 is accepted with 201 and stored, and
it is not an integer. -/
theorem fractional_age_stored :
    (serve (exampleRuntime 1 1)
      (.postUsers { name := .str "Al", email := .str "a@b.co",
                    age := .num (.fin (mkRat 51 2)) }) []).1.status = 201 ∧
    (serve (exampleRuntime 1 1)
      (.postUsers { name := .str "Al", email := .str "a@b.co",
                    age := .num (.fin (mkRat 51 2)) }) []).2.map UserDoc.age
      = [.val (.fin (mkRat 51 2))] ∧
    (JsNum.fin (mkRat 51 2)).isInteger = false := by
  decide

/-- Claim C3, amended: take a create request that is accepted (201) when it
carries no age.  Carrying a number `x` as its age, it is accepted (201, the
document stored with that very age) when `0 <= x` and `x <= 150`, the bounds
0 and 150 included and whether `x` is an integer or not, and it is rejected
(400, the collection unchanged) when `x < 0` or `x > 150`. -/
theorem create_age_range (rt : Runtime) (b : Body) (docs : Store) (x : JsNum)
    (hok : (serve rt (.postUsers { b with age := .undefined }) docs).1.status = 201) :
    (x.ge 0 = true ∧ x.le 150 = true →
      ∃ d, serve rt (.postUsers { b with age := .num x }) docs =
          ({ status := 201, success := true, message := some "User created successfully",
             data := some (.one d) }, docs ++ [d]) ∧
        d.age = .val x) ∧
    (x.ge 0 = false ∨ x.le 150 = false →
      (serve rt (.postUsers { b with age := .num x }) docs).1.status = 400 ∧
      (serve rt (.postUsers { b with age := .num x }) docs).2 = docs) := by
  obtain ⟨hn, he, f, hf, hid, hem⟩ := (created_iff _ _ _).mp hok
  rw [validateNew_ok_iff] at hf
  obtain ⟨f1, f2, -, f4, f5⟩ := hf
  have hg : ¬ (!b.name.truthy || !b.email.truthy) = true := by simp [hn, he]
  constructor
  · intro hx
    have hv : validateNew userSchema rt { b with age := .num x } =
        .ok { f with age := .val x } := by
      rw [validateNew_ok_iff]
      refine ⟨f1, f2, ?_, f4, f5⟩
      rw [numberPath_age_num, if_pos hx]
    refine ⟨newDocument rt { f with age := .val x }, ?_, rfl⟩
    rw [serve_postUsers, if_neg hg, hv]
    have hc : ¬ ((docs.any fun d => d._id = rt.newId) ||
        docs.any fun d => d.email.key = f.email.key) = true := by
      simp only [Bool.or_eq_true, List.any_eq_true, decide_eq_true_eq, not_or, not_exists,
        not_and]
      exact ⟨hid, hem⟩
    simp only [hc, if_false]
    simp
  · intro hx
    have hx' : ¬ (x.ge 0 = true ∧ x.le 150 = true) := by
      rcases hx with h | h <;> simp [h]
    have hv : ∃ e, validateNew userSchema rt { b with age := .num x } = .error e := by
      cases hv : validateNew userSchema rt { b with age := .num x } with
      | error e => exact ⟨e, rfl⟩
      | ok f' =>
        rw [validateNew_ok_iff] at hv
        have h3 := hv.2.2.1
        rw [numberPath_age_num, if_neg hx'] at h3
        split at h3
        · cases h3
        · split at h3 <;> cases h3
    obtain ⟨e, hv⟩ := hv
    rw [serve_postUsers, if_neg hg, hv]
    exact ⟨rfl, rfl⟩

/-- Witness of C3, amended: on an empty collection the request of Al without
an age is accepted, and so is the same request with the age 150. -/
theorem create_age_range_witness :
    (serve (exampleRuntime 1 1)
      (.postUsers { ({ name := .str "Al", email := .str "a@b.co" } : Body) with
        age := .undefined }) []).1.status = 201 ∧
    ∃ d, serve (exampleRuntime 1 1)
        (.postUsers { ({ name := .str "Al", email := .str "a@b.co" } : Body) with
          age := .num (.fin 150) }) [] =
        ({ status := 201, success := true, message := some "User created successfully",
           data := some (.one d) }, [] ++ [d]) ∧
      d.age = .val (.fin 150) :=
  ⟨by decide,
    (create_age_range (exampleRuntime 1 1) { name := .str "Al", email := .str "a@b.co" } []
      (.fin 150) (by decide)).1 ⟨by decide, by decide⟩⟩

/-- Counterexample to C4: `abc` is the id of no stored record, and both the
update and the delete handler answer 400, not 404. -/
theorem malformed_id_is_400 :
    parseObjectId "abc" = none ∧
    (serve (exampleRuntime 1 1) (.putUser "abc" (.fields {})) []).1.status = 400 ∧
    (serve (exampleRuntime 1 1) (.deleteUser "abc") []).1.status = 400 := by
  decide

/-- Claim C4, amended: let `id` resolve to no stored record.  When `id` is not
a well-formed `ObjectId`, update and delete answer 400; when it is well
formed, delete answers 404, and update answers 404 if its body, whatever it
is, gets through the cast, the validators and the parsing of the update, 400 if
it is rejected there.  The collection is unchanged in every case. -/
theorem unknown_id (rt : Runtime) (id : String) (body : UpdateBody) (docs : Store)
    (h : ∀ d ∈ docs, parseObjectId id ≠ some d._id) :
    (serve rt (.putUser id body) docs).2 = docs ∧
    (serve rt (.deleteUser id) docs).2 = docs ∧
    (serve rt (.putUser id body) docs).1.status =
      (if (parseObjectId id).isSome then
        if (prepareUpdate userSchema rt body).isOk then 404 else 400
      else 400) ∧
    (serve rt (.deleteUser id) docs).1.status =
      (if (parseObjectId id).isSome then 404 else 400) := by
  rw [serve_putUser, serve_deleteUser]
  cases hp : parseObjectId id with
  | none => simp
  | some oid =>
    have hs : splitAtId oid docs = none := by
      rw [splitAtId_eq_none]
      intro d hd hid
      exact h d hd (by rw [hp, hid])
    simp only [hs]
    cases hv : prepareUpdate userSchema rt body with
    | error e => by_cases hc : e.code = some 11000 <;> simp [Except.isOk, Except.toBool, hc]
    | ok u => simp [Except.isOk, Except.toBool]

/-- Witness of C4, amended: on a collection that holds the record of Al, a
well-formed id of no record is answered 404 by update, here with a valid new
name, and by delete, and the collection is as it was. -/
theorem unknown_id_witness :
    (∀ d ∈ [newDocument (exampleRuntime 1 10)
        ⟨.val "Al", .val "a@b.co", .absent, .absent, .absent⟩],
      parseObjectId "00000000000000000000000b" ≠ some d._id) ∧
    (serve (exampleRuntime 2 11)
      (.putUser "00000000000000000000000b" (.fields { name := .str "Bo" }))
      [newDocument (exampleRuntime 1 10)
        ⟨.val "Al", .val "a@b.co", .absent, .absent, .absent⟩]).2 =
      [newDocument (exampleRuntime 1 10)
        ⟨.val "Al", .val "a@b.co", .absent, .absent, .absent⟩] ∧
    (serve (exampleRuntime 2 11) (.deleteUser "00000000000000000000000b")
      [newDocument (exampleRuntime 1 10)
        ⟨.val "Al", .val "a@b.co", .absent, .absent, .absent⟩]).2 =
      [newDocument (exampleRuntime 1 10)
        ⟨.val "Al", .val "a@b.co", .absent, .absent, .absent⟩] ∧
    (serve (exampleRuntime 2 11)
      (.putUser "00000000000000000000000b" (.fields { name := .str "Bo" }))
      [newDocument (exampleRuntime 1 10)
        ⟨.val "Al", .val "a@b.co", .absent, .absent, .absent⟩]).1.status = 404 ∧
    (serve (exampleRuntime 2 11) (.deleteUser "00000000000000000000000b")
      [newDocument (exampleRuntime 1 10)
        ⟨.val "Al", .val "a@b.co", .absent, .absent, .absent⟩]).1.status = 404 :=
  have h := unknown_id (exampleRuntime 2 11) "00000000000000000000000b"
    (.fields { name := .str "Bo" })
    [newDocument (exampleRuntime 1 10) ⟨.val "Al", .val "a@b.co", .absent, .absent, .absent⟩]
    (by decide)
  ⟨by decide, h.1, h.2.1, h.2.2.1.trans (by decide), h.2.2.2.trans (by decide)⟩

/-- Claim C9: on a collection whose `_id`s are distinct, as MongoDB keeps them,
deleting by the id of a stored record answers 200 with that record as it was;
the record is taken out and everything else stays in place, no record with
that id is left, and a second delete of the same id answers 404. -/
theorem delete_existing (rt rt' : Runtime) (id : String) (docs : Store) (d : UserDoc)
    (hd : d ∈ docs) (hid : parseObjectId id = some d._id)
    (hnodup : (docs.map UserDoc._id).Nodup) :
    ∃ before after, docs = before ++ d :: after ∧
      serve rt (.deleteUser id) docs =
        ({ status := 200, success := true, message := some "User deleted successfully",
           data := some (.one d) }, before ++ after) ∧
      (∀ x ∈ before ++ after, x._id ≠ d._id) ∧
      (serve rt' (.deleteUser id) (before ++ after)).1.status = 404 := by
  obtain ⟨before, after, rfl⟩ := List.append_of_mem hd
  have hnot : ∀ x ∈ before ++ after, x._id ≠ d._id := by
    intro x hx hxe
    simp only [List.map_append, List.map_cons] at hnodup
    have h1 := List.nodup_append.mp hnodup
    have h2 := List.nodup_cons.mp h1.2.1
    rcases List.mem_append.mp hx with hx | hx
    · exact h1.2.2 (List.mem_map_of_mem UserDoc._id hx)
        (by rw [hxe]; exact List.mem_cons_self _ _)
    · exact h2.1 (by rw [← hxe]; exact List.mem_map_of_mem UserDoc._id hx)
  have hsplit : splitAtId d._id (before ++ d :: after) = some (before, d, after) := by
    have hb : ∀ x ∈ before, x._id ≠ d._id := fun x hx => hnot x (List.mem_append_left _ hx)
    clear hnot hnodup hd
    induction before with
    | nil => simp [splitAtId]
    | cons y ys ih =>
      have hy : y._id ≠ d._id := hb y (List.mem_cons_self _ _)
      have := ih (fun x hx => hb x (List.mem_cons_of_mem _ hx))
      simp [splitAtId, hy, this]
  refine ⟨before, after, rfl, ?_, hnot, ?_⟩
  · rw [serve_deleteUser, hid]
    simp only [hsplit]
  · rw [serve_deleteUser, hid]
    have hs : splitAtId d._id (before ++ after) = none := by
      rw [splitAtId_eq_none]
      exact hnot
    simp only [hs]

/-- Witness of C9: a collection of one record, deleted by its id. -/
theorem delete_existing_witness :
    ∃ before after,
      [newDocument (exampleRuntime 1 10) ⟨.val "Al", .val "a@b.co", .absent, .absent, .absent⟩]
        = before ++
          newDocument (exampleRuntime 1 10) ⟨.val "Al", .val "a@b.co", .absent, .absent, .absent⟩
            :: after ∧
      serve (exampleRuntime 2 11) (.deleteUser "00000000000000000000000a")
          [newDocument (exampleRuntime 1 10)
            ⟨.val "Al", .val "a@b.co", .absent, .absent, .absent⟩] =
        ({ status := 200, success := true, message := some "User deleted successfully",
           data := some (.one (newDocument (exampleRuntime 1 10)
             ⟨.val "Al", .val "a@b.co", .absent, .absent, .absent⟩)) }, before ++ after) ∧
      (∀ x ∈ before ++ after, x._id ≠
        (newDocument (exampleRuntime 1 10)
          ⟨.val "Al", .val "a@b.co", .absent, .absent, .absent⟩)._id) ∧
      (serve (exampleRuntime 3 12) (.deleteUser "00000000000000000000000a")
        (before ++ after)).1.status = 404 :=
  delete_existing (exampleRuntime 2 11) (exampleRuntime 3 12) "00000000000000000000000a"
    [newDocument (exampleRuntime 1 10) ⟨.val "Al", .val "a@b.co", .absent, .absent, .absent⟩]
    (newDocument (exampleRuntime 1 10) ⟨.val "Al", .val "a@b.co", .absent, .absent, .absent⟩)
    (List.mem_singleton.mpr rfl) (by decide) (by decide)

theorem stringPath_ok (rt : Runtime) (o : StringOptions) (v : JsVal) (r : Slot String)
    (h : stringPath rt o v = .ok r) :
    ∃ c, castString rt v = some c ∧ r = o.applySetters c ∧
      firstFailure o.validators r = none := by
  unfold stringPath at h
  cases hc : castString rt v with
  | none => simp [hc] at h
  | some c =>
    simp only [hc] at h
    cases hf : firstFailure o.validators (o.applySetters c) with
    | some m => simp [hf] at h
    | none =>
      simp only [hf, Except.ok.injEq] at h
      exact ⟨c, rfl, h.symm, h ▸ hf⟩

theorem jsTrim_empty : jsTrim "" = "" := by decide

theorem toLowerCase_empty : toLowerCase "" = "" := by decide

theorem applySetters_trim (o : StringOptions) (ht : o.trim = true) (hl : o.lowercase = false)
    (s : String) : o.applySetters (.val s) = .val (jsTrim s) := by
  by_cases hs : s = ""
  · simp [StringOptions.applySetters, ht, hl, hs, jsTrim_empty]
  · simp [StringOptions.applySetters, ht, hl, hs]

theorem applySetters_lowercase (o : StringOptions) (ht : o.trim = false)
    (hl : o.lowercase = true) (s : String) :
    o.applySetters (.val s) = .val (toLowerCase s) := by
  by_cases hs : s = ""
  · simp [StringOptions.applySetters, ht, hl, hs, toLowerCase_empty]
  · simp [StringOptions.applySetters, ht, hl, hs]

theorem stringPath_str_trim (rt : Runtime) (o : StringOptions) (ht : o.trim = true)
    (hl : o.lowercase = false) (s : String) (r : Slot String)
    (h : stringPath rt o (.str s) = .ok r) : r = .val (jsTrim s) := by
  obtain ⟨c, hc, hr, -⟩ := stringPath_ok _ _ _ _ h
  simp only [castString, Option.some.injEq] at hc
  rw [hr, ← hc, applySetters_trim o ht hl]

theorem stringPath_str_lowercase (rt : Runtime) (o : StringOptions) (ht : o.trim = false)
    (hl : o.lowercase = true) (s : String) (r : Slot String)
    (h : stringPath rt o (.str s) = .ok r) : r = .val (toLowerCase s) := by
  obtain ⟨c, hc, hr, -⟩ := stringPath_ok _ _ _ _ h
  simp only [castString, Option.some.injEq] at hc
  rw [hr, ← hc, applySetters_lowercase o ht hl]

theorem stringPath_undefined (rt : Runtime) (o : StringOptions) (r : Slot String)
    (h : stringPath rt o .undefined = .ok r) : r = .absent := by
  obtain ⟨c, hc, hr, -⟩ := stringPath_ok _ _ _ _ h
  simp only [castString, Option.some.injEq] at hc
  rw [hr, ← hc]
  rfl

/-- Counterexample to C6: the name `" Al "` and the email `"A@B.co"` are
submitted and accepted, and the record that the list returns afterwards has the
name `"Al"` and the email `"a@b.co"`, not the values submitted. -/
theorem stored_fields_differ :
    (serve (exampleRuntime 1 1)
      (.postUsers { name := .str " Al ", email := .str "A@B.co" }) []).1.status = 201 ∧
    (serve (exampleRuntime 2 2) .getUsers
      (serve (exampleRuntime 1 1)
        (.postUsers { name := .str " Al ", email := .str "A@B.co" }) []).2).1.data =
      some (.many [{ _id := 1, name := .val "Al", email := .val "a@b.co", age := .absent,
                     phone := .absent, city := .absent, createdAt := 1, updatedAt := 1 }]) ∧
    Slot.val "Al" ≠ Slot.val " Al " ∧ Slot.val "a@b.co" ≠ Slot.val "A@B.co" := by
  decide

/-- Claim C6, amended: after a create request answered 201, a list request
answers 200 with one record more than before: the records stored before,
unchanged, and the new record, the only one with the generated id.  The fields
of the new record are the submitted values as the schema casts and sets them:
the name, phone and city trimmed, the email in lower case, a numeric age as
sent (also when it comes as the `_id` of an object, which the cast unwraps),
and nothing for a field that was not sent. -/
theorem create_then_list (rt rt' : Runtime) (b : Body) (docs : Store)
    (h : (serve rt (.postUsers b) docs).1.status = 201) :
    ∃ d, serve rt (.postUsers b) docs =
        ({ status := 201, success := true, message := some "User created successfully",
           data := some (.one d) }, docs ++ [d]) ∧
      (serve rt' .getUsers docs).1.count = some docs.length ∧
      serve rt' .getUsers (docs ++ [d]) =
        ({ status := 200, success := true, count := some (docs.length + 1),
           data := some (.many (docs ++ [d])) }, docs ++ [d]) ∧
      d._id = rt.newId ∧ (∀ x ∈ docs, x._id ≠ rt.newId) ∧
      stringPath rt userSchema.name b.name = .ok d.name ∧
      stringPath rt userSchema.email b.email = .ok d.email ∧
      numberPath rt userSchema.age b.age = .ok d.age ∧
      stringPath rt userSchema.phone b.phone = .ok d.phone ∧
      stringPath rt userSchema.city b.city = .ok d.city ∧
      (∀ s, b.name = .str s → d.name = .val (jsTrim s)) ∧
      (∀ s, b.email = .str s → d.email = .val (toLowerCase s)) ∧
      (∀ x, b.age = .num x → d.age = .val x) ∧
      (∀ x, b.age = .obj (.num x) → d.age = .val x) ∧
      (∀ s, b.phone = .str s → d.phone = .val (jsTrim s)) ∧
      (∀ s, b.city = .str s → d.city = .val (jsTrim s)) ∧
      (b.age = .undefined → d.age = .absent) ∧
      (b.phone = .undefined → d.phone = .absent) ∧
      (b.city = .undefined → d.city = .absent) := by
  obtain ⟨hn, he, f, hf, hid, hem⟩ := (created_iff _ _ _).mp h
  have hg : ¬ (!b.name.truthy || !b.email.truthy) = true := by simp [hn, he]
  have hc : ¬ ((docs.any fun d => d._id = rt.newId) ||
      docs.any fun d => d.email.key = f.email.key) = true := by
    simp only [Bool.or_eq_true, List.any_eq_true, decide_eq_true_eq, not_or, not_exists,
      not_and]
    exact ⟨hid, hem⟩
  have hf' := (validateNew_ok_iff _ _ _ _).mp hf
  obtain ⟨f1, f2, f3, f4, f5⟩ := hf'
  refine ⟨newDocument rt f, ?_, rfl, ?_, rfl, hid, f1, f2, f3, f4, f5, ?_, ?_, ?_, ?_, ?_, ?_,
    ?_, ?_, ?_⟩
  · rw [serve_postUsers, if_neg hg, hf]
    simp only [hc, if_false]
    simp
  · simp [serve, app, getUsers, mongoose, mongooseModel]
  · intro s hs
    rw [hs] at f1
    exact stringPath_str_trim rt _ rfl rfl s _ f1
  · intro s hs
    rw [hs] at f2
    exact stringPath_str_lowercase rt _ rfl rfl s _ f2
  · intro x hx
    rw [hx, numberPath_age_num] at f3
    split at f3
    · simpa using f3.symm
    · split at f3
      · cases f3
      · split at f3 <;> cases f3
  · intro x hx
    rw [hx, numberPath_obj_num, numberPath_age_num] at f3
    split at f3
    · simpa using f3.symm
    · split at f3
      · cases f3
      · split at f3 <;> cases f3
  · intro s hs
    rw [hs] at f4
    exact stringPath_str_trim rt _ rfl rfl s _ f4
  · intro s hs
    rw [hs] at f5
    exact stringPath_str_trim rt _ rfl rfl s _ f5
  · intro hu
    rw [hu, numberPath_age_undefined] at f3
    simpa using f3.symm
  · intro hu
    rw [hu] at f4
    exact stringPath_undefined rt _ _ f4
  · intro hu
    rw [hu] at f5
    exact stringPath_undefined rt _ _ f5

/-- Witness of C6, amended: the example of the specification, Al on an empty
collection, and the list of one record that follows. -/
theorem create_then_list_witness :
    (serve (exampleRuntime 1 1)
      (.postUsers { name := .str "Al", email := .str "a@b.co" }) []).1.status = 201 ∧
    ∃ d, serve (exampleRuntime 1 1)
        (.postUsers { name := .str "Al", email := .str "a@b.co" }) [] =
        ({ status := 201, success := true, message := some "User created successfully",
           data := some (.one d) }, [] ++ [d]) ∧
      serve (exampleRuntime 2 2) .getUsers ([] ++ [d]) =
        ({ status := 200, success := true, count := some (([] : Store).length + 1),
           data := some (.many ([] ++ [d])) }, [] ++ [d]) :=
  ⟨by decide,
    let ⟨d, h1, _, h3, _⟩ := create_then_list (exampleRuntime 1 1) (exampleRuntime 2 2)
      { name := .str "Al", email := .str "a@b.co" } [] (by decide)
    ⟨d, h1, h3⟩⟩

theorem validateUpdate_ok_iff (S : UserSchema) (rt : Runtime) (b : Body) (u : Update) :
    validateUpdate S rt b = .ok u ↔
      updatePath (stringPath rt S.name) b.name = .ok u.name ∧
      updatePath (stringPath rt S.email) b.email = .ok u.email ∧
      updatePath (numberPath rt S.age) b.age = .ok u.age ∧
      updatePath (stringPath rt S.phone) b.phone = .ok u.phone ∧
      updatePath (stringPath rt S.city) b.city = .ok u.city := by
  unfold validateUpdate
  split
  · next n e a p c hn he ha hp hc =>
    rw [hn, he, ha, hp, hc]
    cases u
    simp
  · next hne =>
    constructor
    · intro h
      cases h
    · rintro ⟨hn, he, ha, hp, hc⟩
      exact (hne _ _ _ _ _ hn he ha hp hc).elim

theorem updatePath_undefined {α : Type} (path : JsVal → Except PathError (Slot α))
    (r : Option (Slot α)) (h : updatePath path .undefined = .ok r) : r = none := by
  simp only [updatePath, Except.ok.injEq] at h
  exact h.symm

theorem updatePath_some {α : Type} (path : JsVal → Except PathError (Slot α)) (v : JsVal)
    (r : Slot α) (h : updatePath path v = .ok (some r)) : path v = .ok r := by
  cases v <;> simp only [updatePath, Except.ok.injEq] at h
  · cases h
  all_goals
    simp only [Except.map] at h
    split at h
    · cases h
    · next a ha =>
      simp only [Except.ok.injEq, Option.some.injEq] at h
      rw [ha, h]

/-- What an update request that is answered 200 has gone through. -/
theorem updated_eq (rt : Runtime) (id : String) (b : Body) (docs : Store)
    (h : (serve rt (.putUser id (.fields b)) docs).1.status = 200) :
    ∃ u before old after, validateUpdate userSchema rt b = .ok u ∧
      parseObjectId id = some old._id ∧ docs = before ++ old :: after ∧
      (∀ x ∈ before, x._id ≠ old._id) ∧
      ((applyUpdate rt.now u old).email.key ≠ old.email.key →
        ∀ x ∈ before ++ after, x.email.key ≠ (applyUpdate rt.now u old).email.key) ∧
      serve rt (.putUser id (.fields b)) docs =
        ({ status := 200, success := true, message := some "User updated successfully",
           data := some (.one (applyUpdate rt.now u old)) },
          before ++ applyUpdate rt.now u old :: after) := by
  rw [serve_putUser_fields] at h ⊢
  cases hp : parseObjectId id with
  | none => simp [hp] at h
  | some oid =>
    simp only [hp] at h ⊢
    cases hv : validateUpdate userSchema rt b with
    | error e => simp [hv] at h
    | ok u =>
      simp only [hv] at h ⊢
      cases hs : splitAtId oid docs with
      | none => simp [hs] at h
      | some r =>
        obtain ⟨before, old, after⟩ := r
        simp only [hs] at h ⊢
        obtain ⟨h1, h2, h3⟩ := splitAtId_eq_some _ _ _ _ _ hs
        subst h2
        by_cases hc : (applyUpdate rt.now u old).email.key ≠ old.email.key ∧
            ((before ++ after).any fun d =>
              d.email.key = (applyUpdate rt.now u old).email.key) = true
        · rw [if_pos hc] at h
          simp at h
        · rw [if_neg hc]
          refine ⟨u, before, old, after, rfl, rfl, h1, h3, ?_, rfl⟩
          intro hne x hx hxe
          exact hc ⟨hne, List.any_eq_true.mpr ⟨x, hx, by simpa using hxe⟩⟩

/-- What a create request that is answered 201 returns and stores. -/
theorem created_eq (rt : Runtime) (b : Body) (docs : Store)
    (h : (serve rt (.postUsers b) docs).1.status = 201) :
    ∃ f, validateNew userSchema rt b = .ok f ∧ (∀ d ∈ docs, d._id ≠ rt.newId) ∧
      (∀ d ∈ docs, d.email.key ≠ f.email.key) ∧
      serve rt (.postUsers b) docs =
        ({ status := 201, success := true, message := some "User created successfully",
           data := some (.one (newDocument rt f)) }, docs ++ [newDocument rt f]) := by
  obtain ⟨hn, he, f, hf, hid, hem⟩ := (created_iff _ _ _).mp h
  have hg : ¬ (!b.name.truthy || !b.email.truthy) = true := by simp [hn, he]
  have hc : ¬ ((docs.any fun d => d._id = rt.newId) ||
      docs.any fun d => d.email.key = f.email.key) = true := by
    simp only [Bool.or_eq_true, List.any_eq_true, decide_eq_true_eq, not_or, not_exists,
      not_and]
    exact ⟨hid, hem⟩
  refine ⟨f, hf, hid, hem, ?_⟩
  rw [serve_postUsers, if_neg hg, hf]
  simp only [hc, if_false]
  simp

/-- The frame of an update that assigns values to paths, as the documentation
of the update handler describes its body: after such a request answered 200,
the record with the given id differs from what it was only in the paths that
the body supplies and in `updatedAt`; every other record is as before and in
its place; the response carries the whole updated record. -/
theorem fields_update_frame (rt : Runtime) (id : String) (b : Body) (docs : Store)
    (h : (serve rt (.putUser id (.fields b)) docs).1.status = 200) :
    ∃ before old after new, docs = before ++ old :: after ∧
      parseObjectId id = some old._id ∧ (∀ x ∈ before, x._id ≠ old._id) ∧
      serve rt (.putUser id (.fields b)) docs =
        ({ status := 200, success := true, message := some "User updated successfully",
           data := some (.one new) }, before ++ new :: after) ∧
      new._id = old._id ∧ new.createdAt = old.createdAt ∧ new.updatedAt = rt.now ∧
      (b.name = .undefined → new.name = old.name) ∧
      (b.email = .undefined → new.email = old.email) ∧
      (b.age = .undefined → new.age = old.age) ∧
      (b.phone = .undefined → new.phone = old.phone) ∧
      (b.city = .undefined → new.city = old.city) := by
  obtain ⟨u, before, old, after, hv, hp, hd, hb, -, hs⟩ := updated_eq rt id b docs h
  rw [validateUpdate_ok_iff] at hv
  obtain ⟨u1, u2, u3, u4, u5⟩ := hv
  refine ⟨before, old, after, applyUpdate rt.now u old, hd, hp, hb, hs, rfl, rfl, rfl,
    ?_, ?_, ?_, ?_, ?_⟩
  · intro hu
    rw [hu] at u1
    simp [applyUpdate, updatePath_undefined _ _ u1]
  · intro hu
    rw [hu] at u2
    simp [applyUpdate, updatePath_undefined _ _ u2]
  · intro hu
    rw [hu] at u3
    simp [applyUpdate, updatePath_undefined _ _ u3]
  · intro hu
    rw [hu] at u4
    simp [applyUpdate, updatePath_undefined _ _ u4]
  · intro hu
    rw [hu] at u5
    simp [applyUpdate, updatePath_undefined _ _ u5]

/-- Claim C7, the code at the failing input: the record of Al has the city
`Oslo`, and the update body is `{ "$rename": { "city": "email" } }`, which
supplies neither `email` nor `city` nor any other field.  The handler passes
the body whole to `findByIdAndUpdate` and answers 200; afterwards the email
of the record is `Oslo` and its city is gone. -/
theorem rename_changes_fields :
    serve (exampleRuntime 2 11)
        (.putUser "00000000000000000000000a" (.other renameCityToEmail))
        [{ _id := 10, name := .val "Al", email := .val "a@b.co", age := .absent,
           phone := .absent, city := .val "Oslo", createdAt := 1, updatedAt := 1 }] =
      ({ status := 200, success := true, message := some "User updated successfully",
         data := some (.one
           { _id := 10, name := .val "Al", email := .val "Oslo", age := .absent,
             phone := .absent, city := .absent, createdAt := 1, updatedAt := 2 }) },
        [{ _id := 10, name := .val "Al", email := .val "Oslo", age := .absent,
           phone := .absent, city := .absent, createdAt := 1, updatedAt := 2 }]) := by
  decide

/-! ## The email of a stored record -/

theorem lowerChar_idem (c : Char) : (lowerChar c).flatMap lowerChar = lowerChar c := by
  by_cases h1 : 0x41 ≤ c.toNat ∧ c.toNat ≤ 0x5A
  · have hc : c = Char.ofNat c.toNat := (Char.ofNat_toNat c).symm
    generalize c.toNat = n at h1 hc
    obtain ⟨hlo, hhi⟩ := h1
    subst hc
    interval_cases n <;> decide
  · by_cases h2 : c.toNat = 0x212A
    · have hc : c = Char.ofNat 0x212A := by rw [← h2, Char.ofNat_toNat]
      subst hc
      decide
    · by_cases h3 : c.toNat = 0x130
      · have hc : c = Char.ofNat 0x130 := by rw [← h3, Char.ofNat_toNat]
        subst hc
        decide
      · have h4 : lowerChar c = [c] := by simp [lowerChar, h1, h2, h3]
        rw [h4]
        simp [h4]

theorem flatMap_lowerChar_idem (l : List Char) :
    (l.flatMap lowerChar).flatMap lowerChar = l.flatMap lowerChar := by
  induction l with
  | nil => rfl
  | cons c cs ih =>
    simp only [List.flatMap_cons, List.flatMap_append, ih, lowerChar_idem]

/-- Lower-casing a string that is in lower case changes nothing. -/
theorem toLowerCase_idem (s : String) : toLowerCase (toLowerCase s) = toLowerCase s := by
  simp only [toLowerCase, flatMap_lowerChar_idem]

theorem stringPath_email (rt : Runtime) (v : JsVal) (r : Slot String)
    (h : stringPath rt userSchema.email v = .ok r) :
    ∃ e₀, castString rt v = some (.val e₀) ∧ r = .val (toLowerCase e₀) ∧
      emailPattern.test (toLowerCase e₀) = true := by
  obtain ⟨c, hc, hr, hf⟩ := stringPath_ok _ _ _ _ h
  have hreq : checkRequired r = true := by
    by_contra hn
    simp [firstFailure, StringOptions.validators, userSchema, List.find?, hn] at hf
  have hmatch : checkMatch emailPattern r = true := by
    by_contra hn
    simp [firstFailure, StringOptions.validators, userSchema, List.find?, hreq, hn] at hf
  cases c with
  | absent =>
    rw [hr] at hreq
    simp [StringOptions.applySetters, checkRequired] at hreq
  | null =>
    rw [hr] at hreq
    simp [StringOptions.applySetters, checkRequired] at hreq
  | val e₀ =>
    have hr' : r = .val (toLowerCase e₀) := by
      rw [hr]
      exact applySetters_lowercase _ rfl rfl e₀
    refine ⟨e₀, hc, hr', ?_⟩
    rw [hr'] at hreq hmatch
    simp only [checkRequired, decide_eq_true_eq] at hreq
    simpa [checkMatch, hreq] using hmatch

/-- Claim C2: let a create request be answered 201, and let a second create
request, valid by itself (it passes the guard of the handler and the
validation of the schema), carry an email that equals the email of the first up
to letter case.  Then the second request is answered 400 with the message
`Email already exists`, and the collection is left as the first request left
it. -/
theorem create_duplicate_email (rt₁ rt₂ : Runtime) (b₁ b₂ : Body) (docs docs₁ : Store)
    (r₁ : Response) (e₁ e₂ : String)
    (h₁ : serve rt₁ (.postUsers b₁) docs = (r₁, docs₁)) (hs : r₁.status = 201)
    (hg₂ : b₂.name.truthy = true ∧ b₂.email.truthy = true)
    (hv₂ : (validateNew userSchema rt₂ b₂).isOk = true)
    (he₁ : castString rt₁ b₁.email = some (.val e₁))
    (he₂ : castString rt₂ b₂.email = some (.val e₂))
    (hcase : toLowerCase e₁ = toLowerCase e₂) :
    serve rt₂ (.postUsers b₂) docs₁ =
      ({ status := 400, success := false, message := some "Email already exists" }, docs₁) := by
  have hs' : (serve rt₁ (.postUsers b₁) docs).1.status = 201 := by rw [h₁]; exact hs
  obtain ⟨f₁, hf₁, -, -, heq⟩ := created_eq _ _ _ hs'
  rw [h₁] at heq
  have hd : docs₁ = docs ++ [newDocument rt₁ f₁] := (Prod.mk.inj heq).2
  obtain ⟨x₁, hx₁, hm₁, -⟩ := stringPath_email _ _ _ ((validateNew_ok_iff _ _ _ _).mp hf₁).2.1
  rw [he₁] at hx₁
  cases hx₁
  cases hf₂ : validateNew userSchema rt₂ b₂ with
  | error e => simp [hf₂, Except.isOk, Except.toBool] at hv₂
  | ok f₂ =>
    obtain ⟨x₂, hx₂, hm₂, -⟩ :=
      stringPath_email _ _ _ ((validateNew_ok_iff _ _ _ _).mp hf₂).2.1
    rw [he₂] at hx₂
    cases hx₂
    have hg : ¬ (!b₂.name.truthy || !b₂.email.truthy) = true := by simp [hg₂.1, hg₂.2]
    have hc : ((docs₁.any fun d => d._id = rt₂.newId) ||
        docs₁.any fun d => d.email.key = f₂.email.key) = true := by
      rw [Bool.or_eq_true]
      right
      rw [List.any_eq_true]
      refine ⟨newDocument rt₁ f₁, by simp [hd], ?_⟩
      simp [newDocument, hm₁, hm₂, hcase]
    rw [serve_postUsers, if_neg hg, hf₂]
    simp only [hc, if_true]

/-- Witness of C2: Al is created on an empty collection; a second request
with the same email in capitals is refused. -/
theorem create_duplicate_email_witness :
    serve (exampleRuntime 2 2) (.postUsers { name := .str "Bo", email := .str "A@B.CO" })
        [newDocument (exampleRuntime 1 1)
          ⟨.val "Al", .val "a@b.co", .absent, .absent, .absent⟩] =
      ({ status := 400, success := false, message := some "Email already exists" },
        [newDocument (exampleRuntime 1 1)
          ⟨.val "Al", .val "a@b.co", .absent, .absent, .absent⟩]) :=
  create_duplicate_email (exampleRuntime 1 1) (exampleRuntime 2 2)
    { name := .str "Al", email := .str "a@b.co" } { name := .str "Bo", email := .str "A@B.CO" }
    [] [newDocument (exampleRuntime 1 1) ⟨.val "Al", .val "a@b.co", .absent, .absent, .absent⟩]
    { status := 201, success := true, message := some "User created successfully",
      data := some (.one (newDocument (exampleRuntime 1 1)
        ⟨.val "Al", .val "a@b.co", .absent, .absent, .absent⟩)) }
    "a@b.co" "A@B.CO" (by decide) (by decide) (by decide) (by decide) (by decide) (by decide)
    (by decide)

/-! ## The invariant of the collection -/

theorem storeInv_nil : StoreInv [] := by
  simp [StoreInv]

theorem postUsers_store (rt : Runtime) (b : Body) (docs : Store) :
    (serve rt (.postUsers b) docs).1.status = 201 ∨
      (serve rt (.postUsers b) docs).2 = docs := by
  rw [serve_postUsers]
  by_cases hg : (!b.name.truthy || !b.email.truthy) = true
  · rw [if_pos hg]
    exact Or.inr rfl
  · rw [if_neg hg]
    cases hv : validateNew userSchema rt b with
    | error e => exact Or.inr rfl
    | ok f =>
      by_cases hc : ((docs.any fun d => d._id = rt.newId) ||
          docs.any fun d => d.email.key = f.email.key) = true
      · right
        simp only [hc, if_true]
      · left
        simp [hc]

theorem putUser_store (rt : Runtime) (id : String) (b : Body) (docs : Store) :
    (serve rt (.putUser id (.fields b)) docs).1.status = 200 ∨
      (serve rt (.putUser id (.fields b)) docs).2 = docs := by
  rw [serve_putUser_fields]
  cases hp : parseObjectId id with
  | none => exact Or.inr rfl
  | some oid =>
    cases hv : validateUpdate userSchema rt b with
    | error e => exact Or.inr rfl
    | ok u =>
      simp only []
      cases hs : splitAtId oid docs with
      | none => exact Or.inr rfl
      | some r =>
        obtain ⟨before, old, after⟩ := r
        by_cases hc : (applyUpdate rt.now u old).email.key ≠ old.email.key ∧
            ((before ++ after).any fun d =>
              d.email.key = (applyUpdate rt.now u old).email.key) = true
        · right
          simp only [if_pos hc]
        · left
          simp only [if_neg hc]

theorem storeInv_post (rt : Runtime) (b : Body) (docs : Store) (hi : StoreInv docs) :
    StoreInv (serve rt (.postUsers b) docs).2 := by
  by_cases h : (serve rt (.postUsers b) docs).1.status = 201
  · obtain ⟨f, hf, hid, hem, heq⟩ := created_eq _ _ _ h
    rw [heq]
    obtain ⟨i1, i2, i3⟩ := hi
    obtain ⟨e₀, -, hm, ht⟩ := stringPath_email _ _ _ ((validateNew_ok_iff _ _ _ _).mp hf).2.1
    refine ⟨?_, ?_, ?_⟩
    · simp only [List.map_append, List.map_cons, List.map_nil]
      rw [List.nodup_append]
      refine ⟨i1, List.nodup_singleton _, ?_⟩
      intro x hx hx'
      obtain ⟨d, hd, rfl⟩ := List.mem_map.mp hx
      exact hid d hd (List.mem_singleton.mp hx')
    · simp only [List.map_append, List.map_cons, List.map_nil]
      rw [List.nodup_append]
      refine ⟨i2, List.nodup_singleton _, ?_⟩
      intro x hx hx'
      obtain ⟨d, hd, rfl⟩ := List.mem_map.mp hx
      exact hem d hd (List.mem_singleton.mp hx')
    · intro d hd
      rcases List.mem_append.mp hd with hd | hd
      · exact i3 d hd
      · rw [List.mem_singleton.mp hd]
        exact ⟨toLowerCase e₀, hm, toLowerCase_idem e₀, ht⟩
  · rcases postUsers_store rt b docs with h' | h'
    · exact (h h').elim
    · rw [h']
      exact hi

theorem storeInv_put (rt : Runtime) (id : String) (b : Body) (docs : Store)
    (hi : StoreInv docs) : StoreInv (serve rt (.putUser id (.fields b)) docs).2 := by
  rcases putUser_store rt id b docs with h | h
  · obtain ⟨u, before, old, after, hv, -, hd, -, hfresh, heq⟩ := updated_eq rt id b docs h
    rw [heq]
    subst hd
    obtain ⟨i1, i2, i3⟩ := hi
    have hok : emailOk (applyUpdate rt.now u old) := by
      have hu := ((validateUpdate_ok_iff _ _ _ _).mp hv).2.1
      cases hue : u.email with
      | none =>
        obtain ⟨e, he, hl, ht⟩ := i3 old (by simp)
        exact ⟨e, by simp [applyUpdate, hue, he], hl, ht⟩
      | some r =>
        rw [hue] at hu
        obtain ⟨e₀, -, hm, ht⟩ := stringPath_email _ _ _ (updatePath_some _ _ _ hu)
        exact ⟨toLowerCase e₀, by simp [applyUpdate, hue, hm], toLowerCase_idem e₀, ht⟩
    refine ⟨?_, ?_, ?_⟩
    · have : (before ++ applyUpdate rt.now u old :: after).map UserDoc._id =
          (before ++ old :: after).map UserDoc._id := by
        simp [applyUpdate]
      rw [this]
      exact i1
    · by_cases hk : (applyUpdate rt.now u old).email.key = old.email.key
      · have : (before ++ applyUpdate rt.now u old :: after).map (fun d => d.email.key) =
            (before ++ old :: after).map (fun d => d.email.key) := by
          simp [hk]
        rw [this]
        exact i2
      · simp only [List.map_append, List.map_cons] at i2 ⊢
        rw [List.nodup_middle, List.nodup_cons] at i2 ⊢
        refine ⟨?_, i2.2⟩
        intro hmem
        rw [← List.map_append] at hmem
        obtain ⟨x, hx, hxe⟩ := List.mem_map.mp hmem
        exact hfresh hk x hx hxe
    · intro d hd
      rcases List.mem_append.mp hd with hd | hd
      · exact i3 d (List.mem_append_left _ hd)
      · rcases List.mem_cons.mp hd with rfl | hd
        · exact hok
        · exact i3 d (List.mem_append_right _ (List.mem_cons_of_mem _ hd))
  · rw [h]
    exact hi

theorem storeInv_delete (rt : Runtime) (id : String) (docs : Store) (hi : StoreInv docs) :
    StoreInv (serve rt (.deleteUser id) docs).2 := by
  rw [serve_deleteUser]
  cases hp : parseObjectId id with
  | none => exact hi
  | some oid =>
    simp only []
    cases hs : splitAtId oid docs with
    | none => exact hi
    | some r =>
      obtain ⟨before, old, after⟩ := r
      obtain ⟨hd, -, -⟩ := splitAtId_eq_some _ _ _ _ _ hs
      subst hd
      obtain ⟨i1, i2, i3⟩ := hi
      have hsub : (before ++ after).Sublist (before ++ old :: after) :=
        List.Sublist.append_left (List.sublist_cons_self old after) before
      refine ⟨?_, ?_, ?_⟩
      · exact List.Nodup.sublist (List.Sublist.map _ hsub) i1
      · exact List.Nodup.sublist (List.Sublist.map _ hsub) i2
      · intro d hd
        exact i3 d (hsub.subset hd)

theorem storeInv_serve (rt : Runtime) (req : Request) (docs : Store)
    (hr : req.documented = true) (hi : StoreInv docs) : StoreInv (serve rt req docs).2 := by
  cases req with
  | getUsers => exact hi
  | postUsers b => exact storeInv_post rt b docs hi
  | putUser id body =>
    cases body with
    | fields b => exact storeInv_put rt id b docs hi
    | other u => simp [Request.documented] at hr
  | deleteUser id => exact storeInv_delete rt id docs hi
  | unmatched => exact hi

theorem storeInv_run (reqs : List (Runtime × Request)) (docs : Store)
    (hr : ∀ r ∈ reqs, r.2.documented = true) (hi : StoreInv docs) :
    StoreInv (run reqs docs) := by
  induction reqs generalizing docs with
  | nil => exact hi
  | cons r rest ih =>
    obtain ⟨rt, req⟩ := r
    exact ih _ (fun r hm => hr r (List.mem_cons_of_mem _ hm))
      (storeInv_serve rt req docs (hr (rt, req) (List.mem_cons_self _ _)) hi)

/-- The invariant on the requests that the documentation describes: start from
the empty collection and serve any finite sequence of requests whose updates
assign values to fields.  In the collection that results no two records have
the same email, and every email is a string in lower case that matches the
pattern of the schema. -/
theorem fields_email_invariant (reqs : List (Runtime × Request))
    (hr : ∀ r ∈ reqs, r.2.documented = true) :
    ((run reqs []).map UserDoc.email).Nodup ∧
    ∀ d ∈ run reqs [], ∃ e, d.email = .val e ∧ toLowerCase e = e ∧
      emailPattern.test e = true := by
  obtain ⟨-, i2, i3⟩ := storeInv_run reqs [] hr storeInv_nil
  refine ⟨?_, i3⟩
  have : (run reqs []).map (fun d => d.email.key) =
      ((run reqs []).map UserDoc.email).map Slot.key := by
    simp
  rw [this] at i2
  exact List.Nodup.of_map _ i2

/-- Claim C8, the code at the failing input: Al is created with the city
`NOT AN EMAIL`, then an update request with the body
`{ "$rename": { "city": "email" } }` is passed whole to `findByIdAndUpdate`
and answered 200.  The email stored afterwards is `NOT AN EMAIL`, which is not
in lower case and does not match the pattern of the schema. -/
theorem rename_breaks_email :
    (serve (exampleRuntime 2 11)
      (.putUser "00000000000000000000000a" (.other renameCityToEmail))
      (run [(exampleRuntime 1 10, .postUsers
        { name := .str "Al", email := .str "a@b.co", city := .str "NOT AN EMAIL" })]
        [])).1.status = 200 ∧
    run [(exampleRuntime 1 10, .postUsers
          { name := .str "Al", email := .str "a@b.co", city := .str "NOT AN EMAIL" }),
        (exampleRuntime 2 11,
          .putUser "00000000000000000000000a" (.other renameCityToEmail))] [] =
      [{ _id := 10, name := .val "Al", email := .val "NOT AN EMAIL", age := .absent,
         phone := .absent, city := .absent, createdAt := 1, updatedAt := 2 }] ∧
    toLowerCase "NOT AN EMAIL" ≠ "NOT AN EMAIL" ∧
    emailPattern.test "NOT AN EMAIL" = false := by
  decide

end RestApi
